import Mathlib

/-!
Verification of the OpenOCD session / command-execution engine of this
repository (source files `openocd_manager.py` and `main.py`).

Modelling conventions:
* Bytes received from the socket are `Nat` values; the prompt byte `b">"` is
  `62`.  The incoming byte stream is a list of chunks, one chunk per
  successful `recv` call; the end of the list models the read timeout and an
  empty chunk models the peer closing the connection (`recv` returning `b""`).
* The transport seen by the command executor is a function
  `tr : List String -> String -> Option String` giving the raw response to a
  command given the list of commands previously sent in the session
  (`none` models a transport error, in which case `_send_command_raw`
  returns `None`).
* Side effects that matter to the spec (commands sent on the socket, backoff
  and settle sleeps) are recorded in an explicit event trace; sleeps carry
  their duration in milliseconds.
* Python exceptions become `Except OpError`; the distinct exception classes
  (`RuntimeError` from `send_command`, `FileNotFoundError` from the flash and
  verify operations) become distinct `OpError` constructors carrying the
  exact message text the code builds.
-/

/-- A single ASCII quote character, used in the messages the code builds
with quoted fragments. -/
def quoteS : String := String.singleton (Char.ofNat 39)

/-- `listHasInfix needle hay` decides whether `needle` occurs as a
contiguous sublist of `hay`. -/
def listHasInfix {α : Type} [BEq α] (needle : List α) : List α → Bool
  | [] => needle.isPrefixOf []
  | a :: rest => needle.isPrefixOf (a :: rest) || listHasInfix needle rest

/-- `containsSub hay needle` models Python `needle in hay` on strings. -/
def containsSub (hay needle : String) : Bool :=
  listHasInfix needle.data hay.data

/-- Python `str.lower()` on the ASCII responses the console produces. -/
def pyLower (s : String) : String := String.mk (s.data.map Char.toLower)

deriving instance DecidableEq for Except

/-- Observable side effects of the engine: a command written to the socket,
or a sleep (milliseconds). -/
inductive Event where
  | send (cmd : String)
  | sleep (ms : Nat)
deriving DecidableEq, Repr

/-- The commands sent so far, extracted from an event trace. -/
def sentCmds : List Event → List String
  | [] => []
  | Event.send c :: rest => c :: sentCmds rest
  | Event.sleep _ :: rest => sentCmds rest

/-- Errors raised by the engine.  `commandFailed` is the `RuntimeError`
raised by `send_command`, `fileNotFound` the `FileNotFoundError` raised by
`flash_firmware`/`verify_firmware`; `unknownDescriptor` and `invalidParams`
are the batch-descriptor failure conditions of the spec; `nameError` models
the Python `NameError` that `send_command` would hit with `max_retries = 0`
(the `return response` after a loop that never ran). -/
inductive OpError where
  | commandFailed (msg : String)
  | fileNotFound (msg : String)
  | unknownDescriptor (tag : String)
  | invalidParams (tag : String)
  | nameError
deriving DecidableEq, Repr

/-- The failure-marker list of `OpenOCDManager._is_command_failed`
(`openocd_manager.py` lines 151-157). -/
def failure_patterns : List String :=
  ["failed", "error", "target not halted", "cannot", "invalid"]

/-- `OpenOCDManager._is_command_failed` (`openocd_manager.py` lines 143-163):
a response is a failure if it is `None` or its lowercase form contains one
of the failure markers. -/
def is_command_failed : Option String → Bool
  | none => true
  | some response => failure_patterns.any (fun p => containsSub (pyLower response) p)

/-- `OpenOCDManager._check_if_halted` (`openocd_manager.py` lines 120-134),
as a function of the raw response to the `targets` status query: truthy
response containing `halted` gives `true`; `running` gives `false`; anything
else (including `None` and the empty string) gives `false`. -/
def check_if_halted_resp : Option String → Bool
  | none => false
  | some response =>
    if response = "" then false
    else if containsSub (pyLower response) "halted" then true
    else if containsSub (pyLower response) "running" then false
    else false

/-- `OpenOCDManager._ensure_halted` (`openocd_manager.py` lines 136-141):
query `targets`; if the target is not seen halted, send `halt` and sleep
0.5 s.  Returns the extended event trace. -/
def ensure_halted (tr : List String → String → Option String)
    (trace : List Event) : List Event :=
  let response := tr (sentCmds trace) "targets"
  let trace1 := trace ++ [Event.send "targets"]
  if check_if_halted_resp response then trace1
  else trace1 ++ [Event.send "halt", Event.sleep 500]

/-- The commands exempt from the corrective-halt step between retries
(`openocd_manager.py` line 192). -/
def halt_like (command : String) : Bool :=
  (["halt", "reset halt", "reset run"] : List String).contains command

/-- The `RuntimeError` message built by `send_command`
(`openocd_manager.py` lines 197-199): the command text, the attempt count,
and the last response when that response is truthy (non-`None`, non-empty). -/
def error_msg (command : String) (max_retries : Nat)
    (last_response : Option String) : String :=
  let base := "Command " ++ quoteS ++ command ++ quoteS ++ " failed after "
      ++ toString max_retries ++ " attempts"
  match last_response with
  | some s => if s = "" then base else base ++ "\nLast OpenOCD response: " ++ s
  | none => base

/-- The retry loop of `OpenOCDManager.send_command`
(`openocd_manager.py` lines 176-203).  `remaining` is the number of loop
iterations still available (`max_retries - attempt`); `attempts` counts the
`_send_command_raw` calls made for `command` so far.  Returns the result,
the extended event trace and the final attempt count.  `remaining = 0` at
entry (only possible with `max_retries = 0`) models the Python `NameError`
on the trailing `return response`. -/
def send_command_loop (tr : List String → String → Option String)
    (command : String) (max_retries : Nat) (check_halt : Bool) :
    Nat → List Event → Nat → (Except OpError (Option String)) × List Event × Nat
  | 0, trace, attempts => (Except.error OpError.nameError, trace, attempts)
  | remaining + 1, trace, attempts =>
    let response := tr (sentCmds trace) command
    let trace1 := trace ++ [Event.send command]
    if is_command_failed response = false then
      (Except.ok response, trace1, attempts + 1)
    else if remaining = 0 then
      (Except.error (OpError.commandFailed (error_msg command max_retries response)),
        trace1, attempts + 1)
    else
      let trace2 := if check_halt && !halt_like command then ensure_halted tr trace1 else trace1
      let trace3 := trace2 ++ [Event.sleep 500]
      send_command_loop tr command max_retries check_halt remaining trace3 (attempts + 1)

/-- `OpenOCDManager.send_command` (`openocd_manager.py` lines 165-203). -/
def send_command (tr : List String → String → Option String)
    (command : String) (max_retries : Nat) (check_halt : Bool)
    (trace : List Event) : (Except OpError (Option String)) × List Event × Nat :=
  send_command_loop tr command max_retries check_halt max_retries trace 0

/-- Python `buffer.split(delimiter, 1)`: split at the first occurrence of
`delim`, returning the part before it and the part after it, or `none` when
`delim` does not occur. -/
def splitFirst (delim : List Nat) : List Nat → Option (List Nat × List Nat)
  | [] => if delim.isPrefixOf ([] : List Nat) then some ([], []) else none
  | b :: rest =>
    if delim.isPrefixOf (b :: rest) then some ([], (b :: rest).drop delim.length)
    else
      match splitFirst delim rest with
      | some (pre, suf) => some (b :: pre, suf)
      | none => none

/-- `OpenOCDManager._read_until` (`openocd_manager.py` lines 81-102).
`chunks` is the sequence of byte chunks `recv` yields before the timeout:
exhausting the list models the timeout, an empty chunk models the peer
closing the stream.  Returns the bytes given to the caller, the new value of
`self.buffer`, and the chunks left unconsumed on the socket. -/
def read_until (delim : List Nat) :
    List (List Nat) → List Nat → List Nat × List Nat × List (List Nat)
  | [], buffer => (buffer, [], [])
  | chunk :: rest, buffer =>
    if chunk.isEmpty then (buffer, [], rest)
    else
      let buf := buffer ++ chunk
      match splitFirst delim buf with
      | some (pre, suf) => (pre ++ delim, suf, rest)
      | none => read_until delim rest buf

/-- Mirrors the loop of `_read_until`: does the call return through the
delimiter-found branch?  (The delimiter test only happens after a successful
`recv`, so this is `false` whenever the chunk list is exhausted or an empty
chunk arrives first, even if the delimiter was already in `buffer`.) -/
def findsDelim (delim : List Nat) : List (List Nat) → List Nat → Bool
  | [], _ => false
  | chunk :: rest, buffer =>
    if chunk.isEmpty then false
    else
      let buf := buffer ++ chunk
      if (splitFirst delim buf).isSome then true else findsDelim delim rest buf

/-- The bytes accumulated in `self.buffer` at the moment `_read_until`
stops looping (either because the delimiter was found or because of
timeout/close). -/
def accumUntilStop (delim : List Nat) : List (List Nat) → List Nat → List Nat
  | [], buffer => buffer
  | chunk :: rest, buffer =>
    if chunk.isEmpty then buffer
    else
      let buf := buffer ++ chunk
      if (splitFirst delim buf).isSome then buf else accumUntilStop delim rest buf

/-- Python bytes `.decode("ascii")`: succeeds only when every byte is below
128. -/
def decodeAscii (bs : List Nat) : Option String :=
  if bs.all (fun b => b < 128) then some (String.mk (bs.map Char.ofNat)) else none

/-- The whitespace set of Python `str.strip()` restricted to ASCII. -/
def isPySpace (c : Char) : Bool :=
  c == ' ' || c == '\t' || c == '\n' || c == '\x0d' || c == '\x0b' || c == '\x0c'

/-- Python `str.strip()`. -/
def pyStrip (s : String) : String :=
  String.mk (((s.data.dropWhile isPySpace).reverse.dropWhile isPySpace).reverse)

/-- Python `s.rsplit(">", 1)[0]`: everything before the last `>` character,
or the whole string when it contains no `>`. -/
def rsplitBefore (s : String) : String :=
  let r := s.data.reverse
  if r.contains '>' then
    String.mk (((r.dropWhile (fun c => !(c == '>'))).drop 1).reverse)
  else s

/-- `OpenOCDManager._send_command_raw` (`openocd_manager.py` lines 104-118)
as a function of the session flags and the byte chunks the socket will
yield: if not connected, or the `sendall` fails (`sendOk = false`), the
result is `None`; otherwise the framed response is read with `_read_until`,
ASCII-decoded (a decode error is swallowed into `None` by the `except`
branch, after the buffer was already updated), the trailing prompt is
stripped with `rsplit` and the text trimmed.  Returns the response and the
new receive buffer. -/
def manager_send_command_raw (connected : Bool) (sendOk : Bool)
    (chunks : List (List Nat)) (buffer : List Nat) : Option String × List Nat :=
  if connected = false then (none, buffer)
  else if sendOk = false then (none, buffer)
  else
    let out := read_until [62] chunks buffer
    match decodeAscii out.1 with
    | none => (none, out.2.1)
    | some s => (some (pyStrip (rsplitBefore s)), out.2.1)

/-- The `OpenOCDManager.send_command` of `main.py` (lines 106-120): the
retry-free manager class that `main.py` defines for the interactive entry
point.  Transcribed from `main.py` independently of
`manager_send_command_raw`. -/
def main_send_command (connected : Bool) (sendOk : Bool)
    (chunks : List (List Nat)) (buffer : List Nat) : Option String × List Nat :=
  if connected = false then (none, buffer)
  else if sendOk = false then (none, buffer)
  else
    let out := read_until [62] chunks buffer
    match decodeAscii out.1 with
    | none => (none, out.2.1)
    | some s => (some (pyStrip (rsplitBefore s)), out.2.1)

/-- The session fields of `OpenOCDManager.__init__` that the connection
invariant concerns: the socket handle (modelled as an opaque-id `Option`),
the `connected` flag and the receive buffer. -/
structure Session where
  sock : Option Nat
  connected : Bool
  buffer : List Nat
deriving DecidableEq, Repr

/-- The constructor state (`openocd_manager.py` lines 11-18):
`socket = None`, `connected = False`, `buffer = b""`. -/
def initSession : Session := { sock := none, connected := false, buffer := [] }

/-- `OpenOCDManager.connect_telnet` (`openocd_manager.py` lines 56-79).
`ok` says whether socket creation and `connect` succeed; `chunks` feeds the
priming read of the startup banner.  When already connected it returns
`True` without touching the state; on success the socket handle is set, the
banner is consumed into the buffer and `connected` becomes `True`; on
failure the `except` branch clears `connected` and closes and nulls the
socket (the buffer is untouched, since the priming read is only reached on
success). -/
def connect_telnet (ok : Bool) (chunks : List (List Nat)) (s : Session) :
    Bool × Session :=
  if s.connected then (true, s)
  else if ok then
    let buf := (read_until [62] chunks s.buffer).2.1
    (true, { sock := some 0, connected := true, buffer := buf })
  else
    (false, { sock := none, connected := false, buffer := s.buffer })

/-- `OpenOCDManager.disconnect` (`openocd_manager.py` lines 343-353): only
when a socket handle is present does it close it, clear `connected`, null
the handle and reset the buffer; with no handle it does nothing at all. -/
def disconnect (s : Session) : Session :=
  if s.sock.isSome then { sock := none, connected := false, buffer := [] } else s

/-- `_send_command_raw` as a step on the session state: it only ever
changes the receive buffer (via `_read_until`), and only when connected. -/
def raw_step (sendOk : Bool) (chunks : List (List Nat)) (s : Session) :
    Option String × Session :=
  let out := manager_send_command_raw s.connected sendOk chunks s.buffer
  (out.1, { s with buffer := out.2 })

/-- The session invariant: `connected` holds exactly when the socket handle
is present, and a released handle goes with an empty receive buffer.  The
first conjunct strengthens the spec invariant
(`connected == true` implies handle non-null) to the form the code
actually maintains. -/
def sessionInv (s : Session) : Prop :=
  (s.connected = true ↔ s.sock.isSome = true) ∧ (s.sock = none → s.buffer = [])

instance (s : Session) : Decidable (sessionInv s) := by
  unfold sessionInv; infer_instance

/-- Digit characters used by Python hex formatting. -/
def hexDigitChar (n : Nat) : Char := ("0123456789abcdef").data.getD n '0'

/-- Little-endian hex digit values of `n`, with explicit fuel (fuel `n`
suffices since the argument strictly decreases under division by 16). -/
def hexValsLE : Nat → Nat → List Nat
  | 0, _ => []
  | fuel + 1, n => if n = 0 then [] else n % 16 :: hexValsLE fuel (n / 16)

/-- The hex digit characters of `n`, most significant first (empty for 0,
which the `08` padding below turns into `00000000` exactly as Python
does). -/
def hexChars (n : Nat) : List Char := ((hexValsLE n n).reverse).map hexDigitChar

/-- Python `"%08x" % n` (equivalently the `{:08x}` format spec used
throughout the operation library): lowercase hex, zero-padded to a MINIMUM
of eight digits -- larger values print with more digits. -/
def pyHex8 (n : Nat) : String :=
  String.mk (List.replicate (8 - (hexChars n).length) '0' ++ hexChars n)

/-- Python `"0x" + "%08x" % n`, i.e. the f-string fragment `0x{n:08x}`. -/
def pythonHex08 (n : Nat) : String := "0x" ++ pyHex8 n

/-- Value of a little-endian hex digit list. -/
def valLE (l : List Nat) : Nat := l.foldr (fun d a => d + 16 * a) 0

/-- Numeric value of hex digit characters, most significant first. -/
def hexCharVal (c : Char) : Nat := ("0123456789abcdef").data.indexOf c

/-- Value of a big-endian hex character list. -/
def valBE (l : List Char) : Nat := l.foldl (fun a c => a * 16 + hexCharVal c) 0

/-- An address argument to `flash_firmware`/`verify_firmware`: a Python
`int` (non-negative, as all call sites parse hex addresses) or a
pre-formatted string. -/
def Addr : Type := Nat ⊕ String

/-- The address string `flash_firmware`/`verify_firmware` embed in the
command (`openocd_manager.py` lines 256-260): integers go through the
`0x{addr:08x}` format, strings pass through unchanged. -/
def addr_str : Addr → String
  | Sum.inl n => pythonHex08 n
  | Sum.inr s => s

/-- The command text built by `OpenOCDManager.flash_firmware`
(`openocd_manager.py` lines 254-265). -/
def flash_cmd (firmware_path : String) (address : Option Addr) : String :=
  match address with
  | some a => "program " ++ firmware_path ++ " " ++ addr_str a
  | none => "program " ++ firmware_path ++ " 0x08000000"

/-- The command text built by `OpenOCDManager.verify_firmware`
(`openocd_manager.py` lines 289-300). -/
def verify_cmd (firmware_path : String) (address : Option Addr) : String :=
  match address with
  | some a => "verify_image " ++ firmware_path ++ " " ++ addr_str a
  | none => "verify_image " ++ firmware_path

/-- The command text built by `OpenOCDManager.read_memory`
(`openocd_manager.py` line 312). -/
def read_memory_cmd (address : Nat) (count : Nat) : String :=
  "mdw " ++ pythonHex08 address ++ " " ++ toString count

/-- The command text built by `OpenOCDManager.write_memory`
(`openocd_manager.py` line 322). -/
def write_memory_cmd (address : Nat) (value : Nat) : String :=
  "mww " ++ pythonHex08 address ++ " " ++ pythonHex08 value

/-- The `FileNotFoundError` message of `flash_firmware`/`verify_firmware`
(`openocd_manager.py` lines 250 and 285). -/
def notfound_msg (firmware_path : String) : String :=
  "Firmware file " ++ quoteS ++ firmware_path ++ quoteS ++ " not found"

/-- The type of an operation outcome: the response (or raised error) and
the extended event trace. -/
def OpResult : Type := Except OpError (Option String) × List Event

/-- `OpenOCDManager.halt` (`openocd_manager.py` lines 205-211):
`send_command("halt", check_halt=False)` with the default three retries. -/
def halt_op (tr : List String → String → Option String) (trace : List Event) :
    OpResult :=
  let r := send_command tr "halt" 3 false trace
  (r.1, r.2.1)

/-- `OpenOCDManager.reset_halt` (`openocd_manager.py` lines 213-219). -/
def reset_halt_op (tr : List String → String → Option String)
    (trace : List Event) : OpResult :=
  let r := send_command tr "reset halt" 3 false trace
  (r.1, r.2.1)

/-- `OpenOCDManager.reset_run` (`openocd_manager.py` lines 221-227). -/
def reset_run_op (tr : List String → String → Option String)
    (trace : List Event) : OpResult :=
  let r := send_command tr "reset run" 3 false trace
  (r.1, r.2.1)

/-- `OpenOCDManager.erase_flash` (`openocd_manager.py` lines 229-237):
ensure the target is halted, then send the sector erase. -/
def erase_flash_op (tr : List String → String → Option String)
    (trace : List Event) : OpResult :=
  let trace1 := ensure_halted tr trace
  let r := send_command tr "flash erase_sector 0 0 last" 3 true trace1
  (r.1, r.2.1)

/-- `OpenOCDManager.flash_firmware` (`openocd_manager.py` lines 239-272):
raise `FileNotFoundError` when the file is missing (before anything touches
the transport), otherwise build the `program` command, ensure the target is
halted and send it.  `fs` is the file-existence oracle (`os.path.exists`). -/
def flash_firmware (fs : String → Bool)
    (tr : List String → String → Option String) (firmware_path : String)
    (address : Option Addr) (trace : List Event) : OpResult :=
  if fs firmware_path then
    let cmd := flash_cmd firmware_path address
    let trace1 := ensure_halted tr trace
    let r := send_command tr cmd 3 true trace1
    (r.1, r.2.1)
  else
    (Except.error (OpError.fileNotFound (notfound_msg firmware_path)), trace)

/-- `OpenOCDManager.verify_firmware` (`openocd_manager.py` lines 274-307). -/
def verify_firmware (fs : String → Bool)
    (tr : List String → String → Option String) (firmware_path : String)
    (address : Option Addr) (trace : List Event) : OpResult :=
  if fs firmware_path then
    let cmd := verify_cmd firmware_path address
    let trace1 := ensure_halted tr trace
    let r := send_command tr cmd 3 true trace1
    (r.1, r.2.1)
  else
    (Except.error (OpError.fileNotFound (notfound_msg firmware_path)), trace)

/-- `OpenOCDManager.read_memory` (`openocd_manager.py` lines 309-315). -/
def read_memory_op (tr : List String → String → Option String)
    (address count : Nat) (trace : List Event) : OpResult :=
  let r := send_command tr (read_memory_cmd address count) 3 true trace
  (r.1, r.2.1)

/-- `OpenOCDManager.write_memory` (`openocd_manager.py` lines 317-325). -/
def write_memory_op (tr : List String → String → Option String)
    (address value : Nat) (trace : List Event) : OpResult :=
  let trace1 := ensure_halted tr trace
  let r := send_command tr (write_memory_cmd address value) 3 true trace1
  (r.1, r.2.1)

/-- `OpenOCDManager.custom_command` (`openocd_manager.py` lines 335-341). -/
def custom_op (tr : List String → String → Option String) (text : String)
    (trace : List Event) : OpResult :=
  let r := send_command tr text 3 true trace
  (r.1, r.2.1)

/-- Modelled from the spec: the batch descriptors of spec section 3.  The
repository's `src/` has no batch runner or config parser (the spec treats
the descriptor source as an external collaborator and the runner is absent
from the source tree), so the descriptor variant is taken from the spec's
enumeration.  `unknown` is a descriptor whose tag matches no operation and
`malformed` one with missing or invalid parameters. -/
inductive Descriptor where
  | halt
  | reset_halt
  | reset_run
  | erase_flash
  | flash (path : String) (address : Option Addr)
  | verify (path : String) (address : Option Addr)
  | read_memory (address count : Nat)
  | write_memory (address value : Nat)
  | custom (text : String)
  | unknown (tag : String)
  | malformed (tag : String)

/-- Modelled from the spec (section 4.5): dispatch one descriptor to the
operation library; an unknown tag or missing parameters is itself a raised
failure. -/
def run_op (fs : String → Bool) (tr : List String → String → Option String) :
    Descriptor → List Event → OpResult
  | Descriptor.halt, trace => halt_op tr trace
  | Descriptor.reset_halt, trace => reset_halt_op tr trace
  | Descriptor.reset_run, trace => reset_run_op tr trace
  | Descriptor.erase_flash, trace => erase_flash_op tr trace
  | Descriptor.flash p a, trace => flash_firmware fs tr p a trace
  | Descriptor.verify p a, trace => verify_firmware fs tr p a trace
  | Descriptor.read_memory a c, trace => read_memory_op tr a c trace
  | Descriptor.write_memory a v, trace => write_memory_op tr a v trace
  | Descriptor.custom t, trace => custom_op tr t trace
  | Descriptor.unknown tag, trace =>
      (Except.error (OpError.unknownDescriptor tag), trace)
  | Descriptor.malformed tag, trace =>
      (Except.error (OpError.invalidParams tag), trace)

/-- Modelled from the spec (section 4.5, `runBatch`): the repository's
`src/` contains no batch runner, so its control flow is taken from the
spec's words: run the descriptors in order; on the first raised failure
stop, attempt one best-effort `erase_flash` whose outcome is discarded, and
return exit code 1; if all succeed return exit code 0. -/
def runBatch (fs : String → Bool) (tr : List String → String → Option String) :
    List Descriptor → List Event → Nat × List Event
  | [], trace => (0, trace)
  | d :: rest, trace =>
    match run_op fs tr d trace with
    | (Except.ok _, trace1) => runBatch fs tr rest trace1
    | (Except.error _, trace1) =>
      (1, (run_op fs tr Descriptor.erase_flash trace1).2)

/-- Does every descriptor succeed when the list is run in order? -/
def allOk (fs : String → Bool) (tr : List String → String → Option String) :
    List Descriptor → List Event → Bool
  | [], _ => true
  | d :: rest, trace =>
    match run_op fs tr d trace with
    | (Except.ok _, trace1) => allOk fs tr rest trace1
    | (Except.error _, _) => false

/-- The event trace after running every descriptor in order (meaningful on
an all-succeeding list). -/
def runSeq (fs : String → Bool) (tr : List String → String → Option String) :
    List Descriptor → List Event → List Event
  | [], trace => trace
  | d :: rest, trace => runSeq fs tr rest (run_op fs tr d trace).2

lemma containsSub_empty_hay (needle : String) (h : needle ≠ "") :
    containsSub "" needle = false := by
  unfold containsSub listHasInfix
  cases hn : needle.data with
  | nil => exact absurd (congrArg String.mk hn) h
  | cons c cs => simp [List.isPrefixOf]

lemma check_true_of_halted (r : String)
    (h : containsSub (pyLower r) "halted" = true) :
    check_if_halted_resp (some r) = true := by
  have hne : r ≠ "" := by
    rintro rfl
    rw [show pyLower "" = "" from rfl] at h
    rw [containsSub_empty_hay "halted" (by decide)] at h
    exact Bool.false_ne_true h
  simp [check_if_halted_resp, hne, h]

lemma check_false_of_not_halted (r : String)
    (h : containsSub (pyLower r) "halted" = false) :
    check_if_halted_resp (some r) = false := by
  by_cases hne : r = ""
  · simp [check_if_halted_resp, hne]
  · by_cases hr : containsSub (pyLower r) "running" = true
    · simp [check_if_halted_resp, hne, h, hr]
    · simp [check_if_halted_resp, hne, h, hr]

/-- Claim C9: the `send_command` that `main.py`'s own `OpenOCDManager`
defines (a single attempt, no failure classification, no retry, no
halt-precondition recovery) is extensionally equal to
`openocd_manager.py`'s `_send_command_raw`: same connectedness check, same
newline-framed send, same read-until-prompt, same prompt stripping and
trimming, same `None` on a transport or decode error, for every transport
behaviour. -/
theorem main_send_command_eq_send_command_raw :
    ∀ (connected sendOk : Bool) (chunks : List (List Nat)) (buffer : List Nat),
      main_send_command connected sendOk chunks buffer =
        manager_send_command_raw connected sendOk chunks buffer :=
  fun _ _ _ _ => rfl

/-- Claim C2: a response is classified as a failure exactly when it is
absent or its lowercase form contains one of the five failure markers; and
a first attempt whose response is not a failure is returned immediately,
with exactly one send on the trace -- no retry, no corrective halt, no
backoff sleep. -/
theorem classifier_iff_and_first_attempt_success :
    (∀ r : Option String, is_command_failed r = true ↔
      (r = none ∨ ∃ s, r = some s ∧ ∃ p ∈ (["failed", "error",
        "target not halted", "cannot", "invalid"] : List String),
          containsSub (pyLower s) p = true))
    ∧ (∀ (tr : List String → String → Option String) (cmd : String)
        (N : Nat) (ch : Bool) (trace : List Event), 1 ≤ N →
        is_command_failed (tr (sentCmds trace) cmd) = false →
        send_command tr cmd N ch trace =
          (Except.ok (tr (sentCmds trace) cmd), trace ++ [Event.send cmd], 1)) := by
  constructor
  · intro r
    cases r with
    | none => simp [is_command_failed]
    | some s => simp [is_command_failed, failure_patterns, List.any_eq_true]
  · intro tr cmd N ch trace hN hok
    obtain ⟨m, rfl⟩ : ∃ m, N = m + 1 := ⟨N - 1, by omega⟩
    simp [send_command, send_command_loop, hok]

theorem classifier_iff_and_first_attempt_success_witness :
    send_command (fun _ _ => some "target is ready") "cfg" 3 true [] =
      (Except.ok (some "target is ready"), [Event.send "cfg"], 1) := by
  have h := classifier_iff_and_first_attempt_success.2
    (fun _ _ => some "target is ready") "cfg" 3 true [] (by decide) (by decide)
  simpa using h

lemma send_loop_all_fail (tr : List String → String → Option String)
    (cmd : String) (N : Nat) (ch : Bool)
    (hfail : ∀ hist, is_command_failed (tr hist cmd) = true) :
    ∀ rem, 1 ≤ rem → ∀ (trace : List Event) (attempts : Nat),
      ∃ last trace', is_command_failed last = true ∧
        send_command_loop tr cmd N ch rem trace attempts =
          (Except.error (OpError.commandFailed (error_msg cmd N last)),
            trace', attempts + rem) := by
  intro rem
  induction rem with
  | zero => omega
  | succ r ih =>
    intro _ trace attempts
    by_cases hr : r = 0
    · subst hr
      refine ⟨tr (sentCmds trace) cmd, trace ++ [Event.send cmd],
        hfail (sentCmds trace), ?_⟩
      simp [send_command_loop, hfail (sentCmds trace)]
    · obtain ⟨last, trace', hlast, hrec⟩ :=
        ih (by omega)
          ((if ch && !halt_like cmd then ensure_halted tr (trace ++ [Event.send cmd])
            else trace ++ [Event.send cmd]) ++ [Event.sleep 500]) (attempts + 1)
      refine ⟨last, trace', hlast, ?_⟩
      rw [show attempts + (r + 1) = attempts + 1 + r from by omega]
      simpa [send_command_loop, hfail (sentCmds trace), hr] using hrec

/-- Claim C1: when every response to `c` is classified as a failure,
`send_command(c, max_retries=N)` with `N >= 1` performs exactly `N`
attempts (the returned attempt counter is `N`) and then raises the
`RuntimeError` built by `error_msg`, which carries the command text and the
last observed (failing) response; the error is the returned value of the
call, i.e. it propagates to the caller rather than being swallowed. -/
theorem send_command_all_failures_raises
    (tr : List String → String → Option String) (cmd : String) (N : Nat)
    (ch : Bool) (trace : List Event) (hN : 1 ≤ N)
    (hfail : ∀ hist, is_command_failed (tr hist cmd) = true) :
    ∃ last trace', is_command_failed last = true ∧
      send_command tr cmd N ch trace =
        (Except.error (OpError.commandFailed (error_msg cmd N last)),
          trace', N) := by
  obtain ⟨last, trace', hlast, h⟩ :=
    send_loop_all_fail tr cmd N ch hfail N hN trace 0
  exact ⟨last, trace', hlast, by simpa [send_command] using h⟩

theorem send_command_all_failures_raises_witness :
    ∃ last trace', is_command_failed last = true ∧
      send_command (fun _ _ => some "invalid x") "cfg" 2 true [] =
        (Except.error (OpError.commandFailed (error_msg "cfg" 2 last)),
          trace', 2) :=
  send_command_all_failures_raises (fun _ _ => some "invalid x") "cfg" 2 true
    [] (by decide)
    (fun _ => by
      show is_command_failed (some "invalid x") = true
      decide)

/-- Claim C6: `_check_if_halted` is true exactly on responses whose
lowercase form contains `halted` (false on `running`, on neither marker,
and on an absent response), and `_ensure_halted` consequently issues no
halt command when the status response contains `halted`, and exactly one
halt command followed by a 0.5 s settle sleep otherwise. -/
theorem check_halted_and_ensure_halted_spec :
    (∀ r : String, containsSub (pyLower r) "halted" = true →
      check_if_halted_resp (some r) = true)
    ∧ (∀ r : String, containsSub (pyLower r) "running" = true →
        containsSub (pyLower r) "halted" = false →
        check_if_halted_resp (some r) = false)
    ∧ (∀ r : String, containsSub (pyLower r) "halted" = false →
        containsSub (pyLower r) "running" = false →
        check_if_halted_resp (some r) = false)
    ∧ check_if_halted_resp none = false
    ∧ (∀ (tr : List String → String → Option String) (trace : List Event)
        (r : String), tr (sentCmds trace) "targets" = some r →
        containsSub (pyLower r) "halted" = true →
        ensure_halted tr trace = trace ++ [Event.send "targets"])
    ∧ (∀ (tr : List String → String → Option String) (trace : List Event),
        (∀ r, tr (sentCmds trace) "targets" = some r →
          containsSub (pyLower r) "halted" = false) →
        ensure_halted tr trace =
          trace ++ [Event.send "targets", Event.send "halt", Event.sleep 500]) := by
  refine ⟨check_true_of_halted, ?_, ?_, rfl, ?_, ?_⟩
  · intro r _ h
    exact check_false_of_not_halted r h
  · intro r h _
    exact check_false_of_not_halted r h
  · intro tr trace r hr hh
    simp [ensure_halted, hr, check_true_of_halted r hh]
  · intro tr trace h
    cases hr : tr (sentCmds trace) "targets" with
    | none => simp [ensure_halted, hr, check_if_halted_resp]
    | some r => simp [ensure_halted, hr, check_false_of_not_halted r (h r hr)]

theorem check_halted_and_ensure_halted_spec_witness :
    ensure_halted (fun _ _ => some "target halted") [] =
      [Event.send "targets"] := by
  have h := check_halted_and_ensure_halted_spec.2.2.2.2.1
    (fun _ _ => some "target halted") [] "target halted" rfl (by decide)
  simpa using h

/-- Claim C10: when the transport delivers no bytes before the read timeout
(or the peer closes with nothing buffered), `_send_command_raw` returns the
empty string; the failure classifier treats the empty string as success, so
`send_command` returns it on the first attempt with no retry and no error
-- at the public interface a complete response timeout is indistinguishable
from a successful command. -/
theorem empty_timeout_response_is_success :
    manager_send_command_raw true true [] [] = (some "", [])
    ∧ manager_send_command_raw true true [[]] [] = (some "", [])
    ∧ is_command_failed (some "") = false
    ∧ (∀ (tr : List String → String → Option String) (cmd : String)
        (N : Nat) (ch : Bool) (trace : List Event), 1 ≤ N →
        tr (sentCmds trace) cmd = some "" →
        send_command tr cmd N ch trace =
          (Except.ok (some ""), trace ++ [Event.send cmd], 1)) := by
  refine ⟨by decide, by decide, by decide, ?_⟩
  intro tr cmd N ch trace hN hresp
  obtain ⟨m, rfl⟩ : ∃ m, N = m + 1 := ⟨N - 1, by omega⟩
  have hok : is_command_failed (some "") = false := by decide
  simp [send_command, send_command_loop, hresp, hok]

theorem empty_timeout_response_is_success_witness :
    send_command (fun _ _ => some "") "mdw 0x08000000 1" 3 true [] =
      (Except.ok (some ""), [Event.send "mdw 0x08000000 1"], 1) := by
  have h := empty_timeout_response_is_success.2.2.2
    (fun _ _ => some "") "mdw 0x08000000 1" 3 true [] (by decide) rfl
  simpa using h

/-- Claim C4: `flash_firmware` and `verify_firmware` on a path that does
not exist raise `FileNotFoundError` (carrying the message the code builds)
and leave the event trace untouched: no command is sent on the transport
for that operation. -/
theorem flash_verify_missing_file_no_send
    (fs : String → Bool) (tr : List String → String → Option String)
    (path : String) (address : Option Addr) (trace : List Event)
    (h : fs path = false) :
    flash_firmware fs tr path address trace =
      (Except.error (OpError.fileNotFound (notfound_msg path)), trace)
    ∧ verify_firmware fs tr path address trace =
      (Except.error (OpError.fileNotFound (notfound_msg path)), trace)
    ∧ sentCmds (flash_firmware fs tr path address trace).2 = sentCmds trace
    ∧ sentCmds (verify_firmware fs tr path address trace).2 = sentCmds trace := by
  refine ⟨?_, ?_, ?_, ?_⟩ <;> simp [flash_firmware, verify_firmware, h]

theorem flash_verify_missing_file_no_send_witness :
    flash_firmware (fun _ => false) (fun _ _ => some "ok") "missing.bin"
        none [] =
      (Except.error (OpError.fileNotFound (notfound_msg "missing.bin")), []) :=
  (flash_verify_missing_file_no_send (fun _ => false) (fun _ _ => some "ok")
    "missing.bin" none [] rfl).1

/-- Claim C7: the invariant "`connected` implies the socket handle is
non-null" (strengthened to the form the code maintains: `connected` iff the
handle is present, and a released handle goes with an empty buffer) is
established by the constructor and preserved by `connect_telnet` (either
outcome), by `_send_command_raw`, and by `disconnect`; any `connect_telnet`
call that returns failure leaves the handle released and `connected`
false; and from any invariant state, `disconnect` leaves `connected`
false, the handle released and the buffer empty. -/
theorem session_invariant_spec :
    sessionInv initSession
    ∧ (∀ (ok : Bool) (chunks : List (List Nat)) (s : Session),
        sessionInv s → sessionInv (connect_telnet ok chunks s).2)
    ∧ (∀ (sendOk : Bool) (chunks : List (List Nat)) (s : Session),
        sessionInv s → sessionInv (raw_step sendOk chunks s).2)
    ∧ (∀ s : Session, sessionInv s → sessionInv (disconnect s))
    ∧ (∀ (ok : Bool) (chunks : List (List Nat)) (s : Session),
        (connect_telnet ok chunks s).1 = false →
        (connect_telnet ok chunks s).2.sock = none ∧
          (connect_telnet ok chunks s).2.connected = false)
    ∧ (∀ s : Session, sessionInv s → (disconnect s).connected = false ∧
        (disconnect s).sock = none ∧ (disconnect s).buffer = [])
    ∧ (∀ s : Session, sessionInv s → s.connected = true →
        s.sock.isSome = true) := by
  refine ⟨by decide, ?_, ?_, ?_, ?_, ?_, ?_⟩
  · intro ok chunks s hs
    by_cases hc : s.connected
    · simpa [connect_telnet, hc] using hs
    · cases ok with
      | true => simp [connect_telnet, hc, sessionInv]
      | false =>
        have hsock : s.sock = none := by
          cases hsk : s.sock with
          | none => rfl
          | some v =>
            exact absurd (hs.1.mpr (by simp [hsk])) hc
        simp [connect_telnet, hc, sessionInv, hs.2 hsock]
  · intro sendOk chunks s hs
    obtain ⟨sk, cn, bf⟩ := s
    cases cn with
    | false => simpa [raw_step, manager_send_command_raw] using hs
    | true =>
      refine ⟨by simpa [raw_step] using hs.1, ?_⟩
      intro hsock
      have h1 := hs.1.mp rfl
      rw [show (raw_step sendOk chunks ⟨sk, true, bf⟩).2.sock = sk from rfl]
        at hsock
      rw [hsock] at h1
      exact absurd h1 (by simp)
  · intro s hs
    cases hsk : s.sock with
    | none => simpa [disconnect, hsk] using hs
    | some v => simp [disconnect, hsk, sessionInv]
  · intro ok chunks s h
    by_cases hc : s.connected
    · rw [show (connect_telnet ok chunks s).1 = true from by
        simp [connect_telnet, hc]] at h
      exact absurd h (by simp)
    · cases ok with
      | true =>
        rw [show (connect_telnet true chunks s).1 = true from by
          simp [connect_telnet, hc]] at h
        exact absurd h (by simp)
      | false => simp [connect_telnet, hc]
  · intro s hs
    cases hsk : s.sock with
    | none =>
      have hc : s.connected = false := by
        cases hcc : s.connected with
        | false => rfl
        | true => exact absurd (hs.1.mp hcc) (by simp [hsk])
      simp [disconnect, hsk, hc, hs.2 hsk]
    | some v => simp [disconnect, hsk]
  · intro s hs
    exact hs.1.mp

theorem session_invariant_spec_witness :
    (disconnect { sock := some 0, connected := true, buffer := [62] }).connected = false
    ∧ (disconnect { sock := some 0, connected := true, buffer := [62] }).sock = none
    ∧ (disconnect { sock := some 0, connected := true, buffer := [62] }).buffer = [] :=
  session_invariant_spec.2.2.2.2.2.1
    { sock := some 0, connected := true, buffer := [62] } (by decide)


lemma splitFirst_eq (delim : List Nat) :
    ∀ (l pre suf : List Nat), splitFirst delim l = some (pre, suf) →
      pre ++ delim ++ suf = l := by
  intro l
  induction l with
  | nil =>
    intro pre suf h
    cases hd : delim with
    | nil =>
      subst hd
      simp [splitFirst] at h
      simp [h.1, h.2]
    | cons a as =>
      subst hd
      simp [splitFirst, List.isPrefixOf] at h
  | cons b rest ih =>
    intro pre suf h
    by_cases hp : delim.isPrefixOf (b :: rest) = true
    · simp only [splitFirst, hp, if_true] at h
      obtain ⟨t, ht⟩ := List.isPrefixOf_iff_prefix.mp hp
      obtain ⟨hpre, hsuf⟩ := Option.some.inj h |> Prod.mk.inj
      subst hpre
      rw [← hsuf, ← ht, List.drop_left]
      simp
    · simp only [splitFirst, hp, if_false, Bool.false_eq_true] at h
      cases hrec : splitFirst delim rest with
      | none => rw [hrec] at h; simp at h
      | some pr =>
        obtain ⟨pre', suf'⟩ := pr
        rw [hrec] at h
        obtain ⟨hpre, hsuf⟩ := Option.some.inj h |> Prod.mk.inj
        subst hpre hsuf
        rw [show (b :: pre') ++ delim ++ suf' = b :: (pre' ++ delim ++ suf') from by simp]
        rw [ih pre' suf' hrec]

/-- Claim C5 counterexample: the delimiter `>` (byte 62) appears in the
accumulated buffer (here: bytes retained from a previous read), but because
`_read_until` only tests for the delimiter after a successful `recv`, a
read whose stream yields nothing (timeout) returns ALL buffered bytes and
clears the buffer, instead of returning up to and including the delimiter
and retaining the surplus as the claim states. -/
theorem read_until_retained_delimiter_counterexample :
    listHasInfix [62] [97, 62, 98] = true
    ∧ read_until [62] [] [97, 62, 98] = ([97, 62, 98], [], [])
    ∧ ¬((read_until [62] [] [97, 62, 98]).1 = [97, 62]
        ∧ (read_until [62] [] [97, 62, 98]).2.1 = [98]) := by decide

/-- Claim C5 (amended): when `_read_until` finds the delimiter -- which
requires the delimiter to appear in the buffer after at least one
successful `recv` during this call -- it returns all accumulated bytes up
to and including the (first occurrence of the) delimiter and retains
exactly the surplus bytes after it in the buffer for the next read; when
the stream times out or closes before that happens (even if the delimiter
was already present in the initially retained buffer), it returns exactly
the accumulated bytes and leaves the buffer empty. -/
theorem read_until_found_or_discard (delim : List Nat) :
    ∀ (chunks : List (List Nat)) (buffer : List Nat),
      (findsDelim delim chunks buffer = true →
        ∃ pre suf,
          splitFirst delim (accumUntilStop delim chunks buffer) = some (pre, suf) ∧
          (read_until delim chunks buffer).1 = pre ++ delim ∧
          (read_until delim chunks buffer).2.1 = suf ∧
          pre ++ delim ++ suf = accumUntilStop delim chunks buffer)
      ∧ (findsDelim delim chunks buffer = false →
          (read_until delim chunks buffer).1 = accumUntilStop delim chunks buffer ∧
          (read_until delim chunks buffer).2.1 = []) := by
  intro chunks
  induction chunks with
  | nil =>
    intro buffer
    constructor
    · intro h
      simp [findsDelim] at h
    · intro _
      simp [read_until, accumUntilStop]
  | cons c rest ih =>
    intro buffer
    by_cases hce : c.isEmpty
    · constructor
      · intro h
        simp [findsDelim, hce] at h
      · intro _
        simp [read_until, accumUntilStop, hce]
    · cases hsp : splitFirst delim (buffer ++ c) with
      | some pr =>
        obtain ⟨pre, suf⟩ := pr
        constructor
        · intro _
          refine ⟨pre, suf, ?_, ?_, ?_, ?_⟩
          · simp [accumUntilStop, hce, hsp]
          · simp [read_until, hce, hsp]
          · simp [read_until, hce, hsp]
          · rw [show accumUntilStop delim (c :: rest) buffer = buffer ++ c from by
              simp [accumUntilStop, hce, hsp]]
            exact splitFirst_eq delim (buffer ++ c) pre suf hsp
        · intro h
          simp [findsDelim, hce, hsp] at h
      | none =>
        have hred1 : read_until delim (c :: rest) buffer =
            read_until delim rest (buffer ++ c) := by
          simp [read_until, hce, hsp]
        have hred2 : findsDelim delim (c :: rest) buffer =
            findsDelim delim rest (buffer ++ c) := by
          simp [findsDelim, hce, hsp]
        have hred3 : accumUntilStop delim (c :: rest) buffer =
            accumUntilStop delim rest (buffer ++ c) := by
          simp [accumUntilStop, hce, hsp]
        rw [hred1, hred2, hred3]
        exact ih (buffer ++ c)

theorem read_until_found_or_discard_witness :
    ∃ pre suf,
      splitFirst [62] (accumUntilStop [62] [[104, 105, 62, 99]] []) = some (pre, suf) ∧
      (read_until [62] [[104, 105, 62, 99]] []).1 = pre ++ [62] ∧
      (read_until [62] [[104, 105, 62, 99]] []).2.1 = suf ∧
      pre ++ [62] ++ suf = accumUntilStop [62] [[104, 105, 62, 99]] [] :=
  (read_until_found_or_discard [62] [[104, 105, 62, 99]] []).1 (by decide)

/-- Claim C3 (spec-modelled: `src/` contains no batch runner, so `runBatch`
is modelled from spec section 4.5): on an all-succeeding descriptor list
the runner issues exactly the corresponding operations in order
(`runSeq` is their sequential composition) and returns exit code 0; on the
first raised failure -- `FileNotFoundError`, `CommandFailed`, an unknown
tag or missing parameters -- it stops (the descriptors after the failing
one never run), issues exactly one best-effort `erase_flash` whose outcome
is discarded, and returns exit code 1 regardless of whether that safety
erase succeeded. -/
theorem runBatch_stops_and_safety_erases
    (fs : String → Bool) (tr : List String → String → Option String) :
    ∀ (ds : List Descriptor) (trace : List Event),
      (allOk fs tr ds trace = true →
        runBatch fs tr ds trace = (0, runSeq fs tr ds trace))
      ∧ (allOk fs tr ds trace = false →
        ∃ pre d post e, ds = pre ++ d :: post ∧
          allOk fs tr pre trace = true ∧
          (run_op fs tr d (runSeq fs tr pre trace)).1 = Except.error e ∧
          runBatch fs tr ds trace =
            (1, (run_op fs tr Descriptor.erase_flash
              (run_op fs tr d (runSeq fs tr pre trace)).2).2)) := by
  intro ds
  induction ds with
  | nil =>
    intro trace
    constructor
    · intro _
      simp [runBatch, runSeq]
    · intro h
      simp [allOk] at h
  | cons d rest ih =>
    intro trace
    rcases hro : run_op fs tr d trace with ⟨r, t1⟩
    cases r with
    | ok v =>
      have hA : allOk fs tr (d :: rest) trace = allOk fs tr rest t1 := by
        simp [allOk, hro]
      have hB : runBatch fs tr (d :: rest) trace = runBatch fs tr rest t1 := by
        simp [runBatch, hro]
      have hC : runSeq fs tr (d :: rest) trace = runSeq fs tr rest t1 := by
        simp [runSeq, hro]
      constructor
      · intro h
        rw [hA] at h
        rw [hB, hC]
        exact (ih t1).1 h
      · intro h
        rw [hA] at h
        obtain ⟨pre, d', post, e, hds, hok, herr, hrb⟩ := (ih t1).2 h
        refine ⟨d :: pre, d', post, e, by simp [hds], ?_, ?_, ?_⟩
        · simp [allOk, hro, hok]
        · rw [show runSeq fs tr (d :: pre) trace = runSeq fs tr pre t1 from by
            simp [runSeq, hro]]
          exact herr
        · rw [hB, hrb]
          rw [show runSeq fs tr (d :: pre) trace = runSeq fs tr pre t1 from by
            simp [runSeq, hro]]
    | error e0 =>
      constructor
      · intro h
        simp [allOk, hro] at h
      · intro _
        refine ⟨[], d, rest, e0, rfl, rfl, ?_, ?_⟩
        · simp [runSeq, hro]
        · rw [show runSeq fs tr [] trace = trace from rfl]
          rw [hro]
          simp [runBatch, hro]

theorem runBatch_stops_and_safety_erases_witness :
    ∃ pre d post e,
      ([Descriptor.halt, Descriptor.flash "missing.bin" none,
        Descriptor.reset_run] : List Descriptor) = pre ++ d :: post ∧
      allOk (fun _ => false) (fun _ _ => some "ok") pre [] = true ∧
      (run_op (fun _ => false) (fun _ _ => some "ok") d
        (runSeq (fun _ => false) (fun _ _ => some "ok") pre [])).1 =
          Except.error e ∧
      runBatch (fun _ => false) (fun _ _ => some "ok")
          [Descriptor.halt, Descriptor.flash "missing.bin" none,
            Descriptor.reset_run] [] =
        (1, (run_op (fun _ => false) (fun _ _ => some "ok")
          Descriptor.erase_flash
          (run_op (fun _ => false) (fun _ _ => some "ok") d
            (runSeq (fun _ => false) (fun _ _ => some "ok") pre [])).2).2) :=
  (runBatch_stops_and_safety_erases (fun _ => false) (fun _ _ => some "ok")
    [Descriptor.halt, Descriptor.flash "missing.bin" none,
      Descriptor.reset_run] []).2 (by decide)

lemma hexValsLE_val : ∀ fuel n, n ≤ fuel → valLE (hexValsLE fuel n) = n := by
  intro fuel
  induction fuel with
  | zero =>
    intro n hn
    rw [show n = 0 from by omega]
    rfl
  | succ f ihf =>
    intro n hn
    by_cases h0 : n = 0
    · subst h0; rfl
    · rw [show hexValsLE (f + 1) n = n % 16 :: hexValsLE f (n / 16) from by
        simp [hexValsLE, h0]]
      rw [show valLE (n % 16 :: hexValsLE f (n / 16)) =
        n % 16 + 16 * valLE (hexValsLE f (n / 16)) from rfl]
      have hdiv : n / 16 ≤ f := by
        have := Nat.div_lt_self (by omega : 0 < n) (by omega : 1 < 16)
        omega
      rw [ihf (n / 16) hdiv]
      omega

lemma hexValsLE_lt16 : ∀ fuel n d, d ∈ hexValsLE fuel n → d < 16 := by
  intro fuel
  induction fuel with
  | zero => intro n d h; simp [hexValsLE] at h
  | succ f ihf =>
    intro n d h
    by_cases h0 : n = 0
    · subst h0; simp [hexValsLE] at h
    · rw [show hexValsLE (f + 1) n = n % 16 :: hexValsLE f (n / 16) from by
        simp [hexValsLE, h0]] at h
      rcases List.mem_cons.mp h with h1 | h2
      · omega
      · exact ihf (n / 16) d h2

lemma hexValsLE_len_le : ∀ fuel n k, n ≤ fuel → n < 16 ^ k →
    (hexValsLE fuel n).length ≤ k := by
  intro fuel
  induction fuel with
  | zero =>
    intro n k hn _
    rw [show n = 0 from by omega]
    simp [hexValsLE]
  | succ f ihf =>
    intro n k hn hk
    by_cases h0 : n = 0
    · subst h0; simp [hexValsLE]
    · rw [show hexValsLE (f + 1) n = n % 16 :: hexValsLE f (n / 16) from by
        simp [hexValsLE, h0]]
      cases k with
      | zero => simp at hk; omega
      | succ j =>
        have hdiv : n / 16 ≤ f := by
          have := Nat.div_lt_self (by omega : 0 < n) (by omega : 1 < 16)
          omega
        have hkj : n / 16 < 16 ^ j := by
          have h16 : n < 16 ^ j * 16 := by
            rw [show (16 : Nat) ^ j * 16 = 16 ^ (j + 1) from by ring]
            exact hk
          omega
        have := ihf (n / 16) j hdiv hkj
        simp only [List.length_cons]
        omega

lemma valBE_snoc (xs : List Char) (c : Char) :
    valBE (xs ++ [c]) = valBE xs * 16 + hexCharVal c := by
  unfold valBE
  rw [List.foldl_append]
  rfl

lemma hexCharVal_hexDigitChar :
    ∀ d : Nat, d < 16 → hexCharVal (hexDigitChar d) = d := by
  decide

lemma valBE_rev_map : ∀ ds : List Nat, (∀ d ∈ ds, d < 16) →
    valBE ((ds.reverse).map hexDigitChar) = valLE ds := by
  intro ds
  induction ds with
  | nil => intro _; rfl
  | cons d rest ih =>
    intro hmem
    rw [List.reverse_cons, List.map_append,
      show List.map hexDigitChar [d] = [hexDigitChar d] from rfl, valBE_snoc]
    rw [ih (fun x hx => hmem x (List.mem_cons_of_mem d hx))]
    rw [hexCharVal_hexDigitChar d (hmem d (List.mem_cons_self d rest))]
    rw [show valLE (d :: rest) = d + 16 * valLE rest from rfl]
    omega

lemma valBE_pad (cs : List Char) :
    ∀ k, valBE (List.replicate k '0' ++ cs) = valBE cs := by
  intro k
  induction k with
  | zero => simp
  | succ j ih =>
    rw [List.replicate_succ, List.cons_append]
    unfold valBE at ih ⊢
    rw [List.foldl_cons]
    rw [show (0 : Nat) * 16 + hexCharVal '0' = 0 from by decide]
    exact ih

lemma hexChars_length (n : Nat) :
    (hexChars n).length = (hexValsLE n n).length := by
  unfold hexChars
  rw [List.length_map, List.length_reverse]

lemma hexDigitChar_mem_charset :
    ∀ d : Nat, d < 16 → hexDigitChar d ∈ ("0123456789abcdef").data := by
  decide

/-- Claim C8 counterexample: for the integer address `2 ^ 32` the value
embedded in the console command (`mdw` shown; all operations share the
formatter) has nine hex digits, not the fixed width of eight the claim
states for every integer: Python `{:08x}` zero-pads to a minimum of eight
digits but does not truncate. -/
theorem hex_format_counterexample :
    read_memory_cmd (2 ^ 32) 1 = "mdw 0x" ++ pyHex8 (2 ^ 32) ++ " 1"
    ∧ (pyHex8 (2 ^ 32)).length = 9
    ∧ ¬((pyHex8 (2 ^ 32)).length = 8) := by
  refine ⟨by decide, by decide, by decide⟩

/-- Claim C8 (amended): for every integer address and value BELOW `2 ^ 32`
(instead of every integer) the value embedded in the console command is an
eight-digit zero-padded lowercase hexadecimal numeral with a `0x` prefix
whose digits decode back to the integer, and a pre-formatted string address
is passed through into the `program`/`verify_image` command unchanged. -/
theorem hex_format_spec (n : Nat) (hn : n < 2 ^ 32) (path s : String)
    (cnt v : Nat) :
    (pyHex8 n).length = 8
    ∧ (∀ c ∈ (pyHex8 n).data, c ∈ ("0123456789abcdef").data)
    ∧ valBE (pyHex8 n).data = n
    ∧ pythonHex08 n = "0x" ++ pyHex8 n
    ∧ flash_cmd path (some (Sum.inl n)) =
        "program " ++ path ++ " " ++ pythonHex08 n
    ∧ flash_cmd path (some (Sum.inr s)) = "program " ++ path ++ " " ++ s
    ∧ verify_cmd path (some (Sum.inl n)) =
        "verify_image " ++ path ++ " " ++ pythonHex08 n
    ∧ verify_cmd path (some (Sum.inr s)) = "verify_image " ++ path ++ " " ++ s
    ∧ read_memory_cmd n cnt = "mdw " ++ pythonHex08 n ++ " " ++ toString cnt
    ∧ write_memory_cmd n v = "mww " ++ pythonHex08 n ++ " " ++ pythonHex08 v := by
  have h168 : (16 : Nat) ^ 8 = 2 ^ 32 := by norm_num
  have hL : (hexChars n).length ≤ 8 := by
    rw [hexChars_length]
    exact hexValsLE_len_le n n 8 le_rfl (by omega)
  refine ⟨?_, ?_, ?_, rfl, rfl, rfl, rfl, rfl, rfl, rfl⟩
  · show (List.replicate (8 - (hexChars n).length) '0' ++ hexChars n).length = 8
    rw [List.length_append, List.length_replicate]
    omega
  · intro c hc
    rcases List.mem_append.mp hc with h1 | h2
    · rw [List.eq_of_mem_replicate h1]
      decide
    · obtain ⟨d, hd, rfl⟩ := List.mem_map.mp h2
      exact hexDigitChar_mem_charset d
        (hexValsLE_lt16 n n d (List.mem_reverse.mp hd))
  · show valBE (List.replicate (8 - (hexChars n).length) '0' ++ hexChars n) = n
    rw [valBE_pad]
    rw [show hexChars n = ((hexValsLE n n).reverse).map hexDigitChar from rfl]
    rw [valBE_rev_map (hexValsLE n n) (hexValsLE_lt16 n n)]
    exact hexValsLE_val n n le_rfl

theorem hex_format_spec_witness :
    (pyHex8 134217728).length = 8
    ∧ (∀ c ∈ (pyHex8 134217728).data, c ∈ ("0123456789abcdef").data)
    ∧ valBE (pyHex8 134217728).data = 134217728
    ∧ pythonHex08 134217728 = "0x" ++ pyHex8 134217728
    ∧ flash_cmd "fw.bin" (some (Sum.inl 134217728)) =
        "program " ++ "fw.bin" ++ " " ++ pythonHex08 134217728
    ∧ flash_cmd "fw.bin" (some (Sum.inr "0x1000")) =
        "program " ++ "fw.bin" ++ " " ++ "0x1000"
    ∧ verify_cmd "fw.bin" (some (Sum.inl 134217728)) =
        "verify_image " ++ "fw.bin" ++ " " ++ pythonHex08 134217728
    ∧ verify_cmd "fw.bin" (some (Sum.inr "0x1000")) =
        "verify_image " ++ "fw.bin" ++ " " ++ "0x1000"
    ∧ read_memory_cmd 134217728 4 =
        "mdw " ++ pythonHex08 134217728 ++ " " ++ toString 4
    ∧ write_memory_cmd 134217728 18 =
        "mww " ++ pythonHex08 134217728 ++ " " ++ pythonHex08 18 :=
  hex_format_spec 134217728 (by norm_num) "fw.bin" "0x1000" 4 18
